import Mathlib

/-!
Verification of the cosmic-calendar client against its specification.

The client-side view-state machine lives in `src/public/main.js` (vanilla
client) and `src/unnamed/part_000` (React client); the backend passthrough
route is `src/routes/api.js`.  JavaScript strings are modelled as lists of
characters; JavaScript `Date` values are modelled as `Option Int` — `some d`
is a valid date whose time value is `d` days (at local midnight) since the
epoch 1970-01-01, `none` is an Invalid Date (NaN time value).  All date
arithmetic follows the ECMAScript `MakeDay`/`TimeClip` operations, which use
mathematical floor division; Lean integer `/` and `%` (Euclidean) coincide
with floor division and modulo for the positive divisors used here.
-/

namespace Cosmic

/-- JavaScript strings, modelled as lists of characters. -/
abbrev JSStr := List Char

/-- The decimal digit character for `n < 10`. -/
def digitChar (n : Nat) : Char := Char.ofNat (48 + n)

/-- Value of a string of decimal digits (most significant first). -/
def digitsToNat (s : JSStr) : Nat :=
  s.foldl (fun acc c => 10 * acc + (c.toNat - 48)) 0

/-- True when every character of `s` is a decimal digit. -/
def allDigits (s : JSStr) : Bool := s.all (fun c => c.isDigit)

/-- Models ECMAScript `Number(str)` on the strings the client feeds it
    (the `'-'`-separated segments of a date string): the empty string
    converts to `0`, a string of decimal digits converts to its value, and
    any other segment of a date-shaped input converts to NaN (`none`). -/
def jsNumber (s : JSStr) : Option Int :=
  if s = [] then some 0
  else if allDigits s then some (digitsToNat s)
  else none

/-- `Number` applied to a possibly-`undefined` value: `Number(undefined)`
    is NaN, which destructuring a too-short split result produces. -/
def jsNumberU : Option JSStr → Option Int
  | none => none
  | some s => jsNumber s

/-- Models `str.split('-')` for a one-character separator: the JavaScript
    result on the empty string is `[""]`, and adjacent separators produce
    empty segments. -/
def splitDash : JSStr → List JSStr
  | [] => [[]]
  | c :: rest =>
    if c = '-' then [] :: splitDash rest
    else
      match splitDash rest with
      | [] => [[c]]
      | s :: ss => (c :: s) :: ss

/-- Gregorian leap-year test (proleptic), as in ECMAScript `DaysInYear`. -/
def isLeap (y : Int) : Bool :=
  (y % 4 == 0 && y % 100 != 0) || y % 400 == 0

/-- Number of days in month `m` (1-based) of year `y`. -/
def daysInMonth (y m : Int) : Int :=
  if m = 2 then (if isLeap y then 29 else 28)
  else if m = 4 ∨ m = 6 ∨ m = 9 ∨ m = 11 then 30
  else 31

/-- Day number (days since 1970-01-01) of the calendar day `(y, m, d)` with
    `1 ≤ m ≤ 12` and arbitrary integer `d` (day overflow is carried, exactly
    as ECMAScript `MakeDay` does).  Uses the standard shifted-year
    decomposition with floor division. -/
def civilDays (y m d : Int) : Int :=
  let y2 := if m ≤ 2 then y - 1 else y
  let mp := if m ≤ 2 then m + 9 else m - 3
  365 * y2 + y2 / 4 - y2 / 100 + y2 / 400
    + (153 * mp + 2) / 5 + d - 1 - 719468

/-- Inverse of `civilDays`: the `(year, month, day)` fields read back from a
    day number, as `getFullYear`/`getMonth`/`getDate` compute them. -/
def civilFromDays (z0 : Int) : Int × Int × Int :=
  let z := z0 + 719468
  let era := z / 146097
  let doe := z - era * 146097
  let yoe := (doe - doe / 1460 + doe / 36524 - doe / 146096) / 365
  let y := yoe + era * 400
  let doy := doe - (365 * yoe + yoe / 4 - yoe / 100)
  let mp := (5 * doy + 2) / 153
  let d := doy - (153 * mp + 2) / 5 + 1
  let m := if mp < 10 then mp + 3 else mp - 9
  (if m ≤ 2 then y + 1 else y, m, d)

/-- ECMAScript `MakeDay(y, mIdx, d)` for a 0-based month index `mIdx`:
    month overflow is folded into the year with floor division/modulo. -/
def jsMakeDay (y mIdx d : Int) : Int :=
  civilDays (y + mIdx / 12) (mIdx % 12 + 1) d

/-- Milliseconds per day. -/
def msPerDay : Int := 86400000

/-- ECMAScript `TimeClip` bound: time values beyond ±8.64e15 ms are NaN. -/
def maxTimeMs : Int := 8640000000000000

/-- `TimeClip` at day granularity: a day number whose midnight time value
    exceeds the representable range gives an Invalid Date. -/
def clipDay (day : Int) : Option Int :=
  if -maxTimeMs ≤ day * msPerDay ∧ day * msPerDay ≤ maxTimeMs then some day else none

/-- `parseDate` from `src/public/main.js` (and `src/unnamed/part_000`):
    split on `'-'`, convert the first three segments with `Number`, and
    build `new Date(year, month - 1, day)`.  The `Date` constructor maps
    years 0–99 to 1900–1999 and applies `MakeDay` then `TimeClip`; any NaN
    component yields an Invalid Date. -/
def parseDate (s : JSStr) : Option Int :=
  let parts := splitDash s
  match jsNumberU parts[0]?, jsNumberU parts[1]?, jsNumberU parts[2]? with
  | some y, some m, some d =>
    let yr := if 0 ≤ y ∧ y ≤ 99 then 1900 + y else y
    clipDay (jsMakeDay yr (m - 1) d)
  | _, _, _ => none

/-- Fuel-driven decimal rendering of a natural number (most significant
    digit first), accumulating digits; `fuel > n` suffices. -/
def natToStrAux : Nat → Nat → JSStr → JSStr
  | 0, _, acc => acc
  | fuel + 1, n, acc =>
    if n < 10 then digitChar n :: acc
    else natToStrAux fuel (n / 10) (digitChar (n % 10) :: acc)

/-- Decimal rendering of a natural number, as JavaScript `String(n)`. -/
def natToStr (n : Nat) : JSStr := natToStrAux (n + 1) n []

/-- Decimal rendering of an integer, as JavaScript `String(n)`. -/
def intToStr (n : Int) : JSStr :=
  if n < 0 then '-' :: natToStr (-n).toNat else natToStr n.toNat

/-- `str.padStart(2, '0')`. -/
def padStart2 (s : JSStr) : JSStr :=
  if s.length ≥ 2 then s else List.replicate (2 - s.length) '0' ++ s

/-- The characters of `String(NaN)`. -/
def nanChars : JSStr := ['N', 'a', 'N']

/-- `formatDate` from `src/public/main.js`: renders `getFullYear()` (no
    padding), and `getMonth() + 1` / `getDate()` padded to two characters,
    joined by `'-'`.  On an Invalid Date every field renders as `"NaN"`
    (padding leaves a three-character string unchanged). -/
def formatDate : Option Int → JSStr
  | none => nanChars ++ ('-' :: (nanChars ++ ('-' :: nanChars)))
  | some day =>
    let c := civilFromDays day
    intToStr c.1 ++ ('-' :: (padStart2 (intToStr c.2.1) ++ ('-' :: padStart2 (intToStr c.2.2))))

/-- `addDays` from `src/public/main.js`: parse, shift the day-of-month via
    `setDate(getDate() + days)` (equivalently add `days` to the day number,
    re-clipped), and format. -/
def addDays (s : JSStr) (days : Int) : JSStr :=
  match parseDate s with
  | some day => formatDate (clipDay (day + days))
  | none => formatDate none

/-- The day number of `new Date(1995, 5, 16)` (June 16, 1995). -/
def minApodDate : Int := jsMakeDay 1995 5 16

/-- `isValidApodDate` from `src/public/main.js`: compares the parsed date
    against `new Date(1995, 5, 16)` and `new Date()` (the clock `nowMs`, in
    ms).  Date comparisons compare time values; comparisons with an Invalid
    Date (NaN) are false. -/
def isValidApodDate (s : JSStr) (nowMs : Int) : Bool :=
  match parseDate s with
  | none => false
  | some checkDate =>
    decide (minApodDate * msPerDay ≤ checkDate * msPerDay)
      && decide (checkDate * msPerDay ≤ nowMs)

/-- A well-formed `YYYY-MM-DD` date string assembled from its numeric
    components: the year rendered in decimal, month and day zero-padded to
    two characters.  Used to quantify over valid date strings. -/
def renderDate (y m d : Int) : JSStr :=
  intToStr y ++ ('-' :: (padStart2 (intToStr m) ++ ('-' :: padStart2 (intToStr d))))

/-- A single-day record as delivered by the APOD API: `media_type` is a plain
    string and `copyright` may be absent. -/
structure Apod where
  title : JSStr
  date : JSStr
  url : JSStr
  media_type : JSStr
  explanation : JSStr
  copyright : Option JSStr
deriving DecidableEq

/-- The mutable UI `state` object of `src/public/main.js`. -/
structure AppState where
  selectedDate : Option JSStr
  isLoading : Bool
  isModalOpen : Bool
  isFocusMode : Bool
  error : Option JSStr
  currentApod : Option Apod
deriving DecidableEq

/-- Externally observable actions of the client handlers: handing a date to
    the debounced fetch, an `alert`, or a `localStorage` write of the whole
    favorites mapping. -/
inductive Effect
  | fetchReq (date : Option JSStr)
  | alertMsg (msg : JSStr)
  | saveStore (favs : List (JSStr × Apod))
deriving DecidableEq

/-- JavaScript `a || b` for an optional string `a`: `undefined`/`null` and
    the empty string are falsy. -/
def jsOrStr : Option JSStr → JSStr → JSStr
  | some s, b => if s = [] then b else s
  | none, b => b

/-- JavaScript `a || null` for an optional string `a`. -/
def jsOrNull : Option JSStr → Option JSStr
  | some s => if s = [] then none else some s
  | none => none

/-- Outcome of the `axios.get` call in `fetchAPODInternal`: a parsed body;
    an error response carrying the HTTP status and the `error` field of the
    response JSON (`error.response`); a transport failure with no response
    (`error.request`); or a request-setup error. -/
inductive FetchOutcome
  | success (data : Apod)
  | httpError (status : Nat) (dataError : Option JSStr)
  | noResponse
  | setupError
deriving DecidableEq

/-- The user-facing message `fetchAPODInternal` derives from the error:
    starts from the default text, then `error.response.data?.error ||`
    the status text, or the no-response text. -/
def errorMessageOf : FetchOutcome → JSStr
  | .success _ => "Failed to fetch APOD data.".data
  | .httpError status dataError =>
    jsOrStr dataError ("Error: ".data ++ natToStr status)
  | .noResponse => "No response from server. Check your connection.".data
  | .setupError => "Failed to fetch APOD data.".data

/-- `fetchAPODInternal` from `src/public/main.js` as a transition on the
    state, parameterised by the network outcome.  On entry it sets
    `isLoading` and clears `error`; on success it stores the data, remembers
    the requested date, and closes the date modal; on failure it clears
    `isLoading`, records the derived message in `error`, and alerts it. -/
def fetchAPODInternal (st : AppState) (date : Option JSStr) (outcome : FetchOutcome) :
    AppState × List Effect :=
  let st1 := { st with isLoading := true, error := none }
  match outcome with
  | .success apodData =>
    ({ st1 with
        isLoading := false
        currentApod := some apodData
        selectedDate := date
        isModalOpen := false }, [])
  | o =>
    let msg := errorMessageOf o
    ({ st1 with isLoading := false, error := some msg }, [.alertMsg msg])

/-- The synchronous prefix of `fetchAPODInternal` (the `setState` issued
    before `await`): runs at request-issue time. -/
def fetchStart (st : AppState) : AppState :=
  { st with isLoading := true, error := none }

/-- The success continuation of `fetchAPODInternal` (the `setState` after
    the response, plus `closeModal()`): runs when that response arrives. -/
def fetchSuccess (st : AppState) (date : Option JSStr) (apodData : Apod) : AppState :=
  { st with
      isLoading := false
      currentApod := some apodData
      selectedDate := date
      isModalOpen := false }

/-- Successful responses applied in wall-clock completion order: the source
    has no request fencing, so each arriving response runs the same success
    continuation regardless of issue order. -/
def runCompletions (st : AppState) (completions : List (Option JSStr × Apod)) : AppState :=
  completions.foldl (fun s c => fetchSuccess s c.1 c.2) st

/-- Alert text used by `navigateAPOD` when no record is loaded. -/
def noApodMsg : JSStr := "No APOD data available".data

/-- Boundary alert for navigating past today. -/
def futureMsg : JSStr := "No APOD available for future dates".data

/-- Boundary alert for navigating before the earliest date. -/
def pastMsg : JSStr := "No APOD available before June 16, 1995".data

/-- `navigateAPOD` from `src/public/main.js`: with no current record it
    alerts; otherwise it computes `addDays(currentDate, direction)` and
    either hands the new date to the debounced `fetchAPOD` or alerts the
    boundary message.  It never writes to `state`. -/
def navigateAPOD (st : AppState) (direction : Int) (nowMs : Int) :
    AppState × List Effect :=
  match st.currentApod with
  | none => (st, [.alertMsg noApodMsg])
  | some apod =>
    let newDate := addDays apod.date direction
    if isValidApodDate newDate nowMs then (st, [.fetchReq (some newDate)])
    else (st, [.alertMsg (if direction > 0 then futureMsg else pastMsg)])

/-- The favorites mapping: a JavaScript object keyed by date string, in
    property insertion order. -/
abbrev FavMap := List (JSStr × Apod)

/-- `favorites[date]` — the entry with the given key, if any. -/
def favGet (favs : FavMap) (k : JSStr) : Option Apod :=
  (favs.find? (fun p => p.1 == k)).map (fun p => p.2)

/-- `delete favorites[date]`. -/
def favDelete (favs : FavMap) (k : JSStr) : FavMap :=
  favs.filter (fun p => !(p.1 == k))

/-- `favorites[date] = v`: overwrites an existing property in place, or
    appends a new one in insertion order. -/
def favAssign (favs : FavMap) (k : JSStr) (v : Apod) : FavMap :=
  if (favs.find? (fun p => p.1 == k)).isSome then
    favs.map (fun p => if p.1 == k then (k, v) else p)
  else favs ++ [(k, v)]

/-- A persisted `apod-favorites` value after `JSON.parse`: the legacy array
    shape, or the object shape. -/
inductive StoredFavs
  | arrayVal (elems : List Apod)
  | objVal (entries : FavMap)
deriving DecidableEq

/-- `getFavorites` from `src/public/main.js`: `JSON.parse` the stored value
    when present, else `{}`.  The parsed value is returned as-is — there is
    no array check in this client. -/
def getFavorites : Option StoredFavs → StoredFavs
  | some v => v
  | none => .objVal []

/-- The `localStorage` load effect of `src/unnamed/part_000`
    (`CosmicCalendarClient`): starting from the initial `{}`, a stored
    object replaces it, while an absent value or a stored array leaves it
    empty (the `!Array.isArray(parsed)` guard). -/
def loadFavoritesReact : Option StoredFavs → FavMap
  | some (.objVal entries) => entries
  | some (.arrayVal _) => []
  | none => []

/-- Alert text used by `toggleFavorite` when no record is loaded. -/
def noFavMsg : JSStr := "No APOD data available to favorite".data

/-- The snapshot `toggleFavorite` stores: the fields of the current record, with
    `copyright: state.currentApod.copyright || null`. -/
def snapshotOf (a : Apod) : Apod :=
  { title := a.title, date := a.date, url := a.url, media_type := a.media_type,
    explanation := a.explanation, copyright := jsOrNull a.copyright }

/-- `toggleFavorite` from `src/public/main.js`, the favorites store (in its
    object shape) passed explicitly: re-reads the store, deletes the entry
    when `favorites[date]` is truthy, otherwise adds the snapshot, then
    persists the whole mapping.  The UI state object is not written
    (`updateFavoriteButton` only touches the DOM), and no fetch happens. -/
def toggleFavorite (st : AppState) (store : FavMap) : AppState × FavMap × List Effect :=
  match st.currentApod with
  | none => (st, store, [.alertMsg noFavMsg])
  | some apod =>
    let date := apod.date
    let favorites := store
    let newFavs :=
      if (favGet favorites date).isSome then favDelete favorites date
      else favAssign favorites date (snapshotOf apod)
    (st, newFavs, [.saveStore newFavs])

/-- The foreground-layer click handler registered by `initEventListeners`
    in `src/public/main.js` (and `handleForegroundClick` in
    `src/unnamed/part_000`): returns early when the date modal is open, or
    when the click target sits inside an interactive element — the
    `closest` selector also matches the open modals — and otherwise flips
    `isFocusMode`. -/
def handleForegroundClick (st : AppState) (targetInteractive : Bool) : AppState :=
  if st.isModalOpen then st
  else if targetInteractive then st
  else { st with isFocusMode := !st.isFocusMode }

/-- Trailing-edge debounce semantics of `debounce(func, delay)` from
    `src/public/main.js`: each call clears the pending timer and schedules
    `func` at its own time plus `delay`.  Given the chronological list of
    call events `(time, argument)`, returns the calls that actually fire,
    each with its firing time: a call is cancelled exactly when the next
    call arrives strictly before its timer expires. -/
def debounceRun (delay : Int) : List (Int × Option JSStr) → List (Int × Option JSStr)
  | [] => []
  | [(t, d)] => [(t + delay, d)]
  | (t1, d1) :: (t2, d2) :: rest =>
    if t2 < t1 + delay then debounceRun delay ((t2, d2) :: rest)
    else (t1 + delay, d1) :: debounceRun delay ((t2, d2) :: rest)

/-- Request URL built by `fetchAPOD` in `src/unnamed/part_000`. -/
def apodUrl : Option JSStr → JSStr
  | some d => "/api/apod?date=".data ++ d
  | none => "/api/apod".data

/-- `fetchAPOD` in `src/unnamed/part_000` is not debounced: every
    invocation performs its `fetch(url)` immediately at call time. -/
def reactFetchRequests (calls : List (Int × Option JSStr)) : List (Int × JSStr) :=
  calls.map (fun c => (c.1, apodUrl c.2))

/-- What the upstream NASA call produced, as seen inside the `/api/apod`
    route of `src/routes/api.js`: a body, an error response with a status
    and an axios `error.message`, or no response at all. -/
inductive UpstreamOutcome
  | ok (body : Apod)
  | errResponse (status : Nat) (message : JSStr)
  | noResp (message : Option JSStr)
deriving DecidableEq

/-- A response sent by the route: the relayed body, or a status code with
    the JSON `error` field. -/
inductive RouteResponse
  | ok (body : Apod)
  | err (status : Nat) (errorMsg : JSStr)
deriving DecidableEq

/-- The fixed message the route answers for an upstream 400. -/
def invalidDateMsg : JSStr := "Invalid date format. Use YYYY-MM-DD".data

/-- The `/api/apod` handler from `src/routes/api.js`: relays the upstream
    body; maps upstream 400 and 401 to fixed messages; relays any other
    error status with `error.message`; answers 500 with
    `error.message` with the default fallback text on transport failure. -/
def apodRoute : UpstreamOutcome → RouteResponse
  | .ok body => .ok body
  | .errResponse status message =>
    if status = 400 then .err 400 invalidDateMsg
    else if status = 401 then .err 401 "Invalid API key".data
    else .err status message
  | .noResp message => .err 500 (jsOrStr message "Failed to fetch APOD data".data)

/-- The axios outcome `fetchAPODInternal` observes for a backend response:
    axios rejects on a non-2xx status with `error.response` carrying the
    parsed JSON body, whose `error` field the handler reads. -/
def outcomeOfResponse : RouteResponse → FetchOutcome
  | .ok body => .success body
  | .err status errorMsg => .httpError status (some errorMsg)

/-- A concrete record used by witnesses and counterexamples. -/
def sampleApod : Apod :=
  { title := "A".data
    date := "2024-05-10".data
    url := "u".data
    media_type := "image".data
    explanation := "e".data
    copyright := none }

/-- A concrete state displaying `sampleApod`: no modal open, no error. -/
def sampleState : AppState :=
  { selectedDate := some "2024-05-10".data
    isLoading := false
    isModalOpen := false
    isFocusMode := false
    error := none
    currentApod := some sampleApod }

/-! ## Supporting lemmas: the civil-calendar roundtrip -/

/-- Recovery of the year-of-era from the day-of-era in `civilFromDays`. -/
theorem yoe_recover (r w : Int) (hr0 : 0 ≤ r) (hr1 : r < 400) (hw0 : 0 ≤ w)
    (hw1 : w ≤ 364 ∨ (w = 365 ∧ r % 4 = 3 ∧ (¬ r % 100 = 99 ∨ r = 399))) :
    ((365 * r + r / 4 - r / 100 + w) -
      (365 * r + r / 4 - r / 100 + w) / 1460 +
      (365 * r + r / 4 - r / 100 + w) / 36524 -
      (365 * r + r / 4 - r / 100 + w) / 146096) / 365 = r := by
  obtain ⟨c, a, s, rfl, hc0, hc1, ha0, ha1, hs0, hs1⟩ :
      ∃ c a s, r = 100 * c + 4 * a + s ∧ 0 ≤ c ∧ c < 4 ∧ 0 ≤ a ∧ a < 25 ∧ 0 ≤ s ∧ s < 4 :=
    ⟨r / 100, (r % 100) / 4, r % 100 % 4, by omega, by omega, by omega, by omega, by omega,
      by omega, by omega⟩
  have h4 : (100 * c + 4 * a + s) / 4 = 25 * c + a := by omega
  have h100 : (100 * c + 4 * a + s) / 100 = c := by omega
  by_cases hb : 1460 ≤ 24 * c + a + 365 * s + w
  · have hQ1 : (365 * (100 * c + 4 * a + s) + (100 * c + 4 * a + s) / 4
        - (100 * c + 4 * a + s) / 100 + w) / 1460 = 25 * c + a + 1 := by omega
    by_cases hcorner : a = 24 ∧ s = 3 ∧ w = 365
    · have hc3 : c = 3 := by omega
      have hQ2 : (365 * (100 * c + 4 * a + s) + (100 * c + 4 * a + s) / 4
          - (100 * c + 4 * a + s) / 100 + w) / 36524 = c + 1 := by omega
      have hQ3 : (365 * (100 * c + 4 * a + s) + (100 * c + 4 * a + s) / 4
          - (100 * c + 4 * a + s) / 100 + w) / 146096 = 1 := by omega
      omega
    · have hQ2 : (365 * (100 * c + 4 * a + s) + (100 * c + 4 * a + s) / 4
          - (100 * c + 4 * a + s) / 100 + w) / 36524 = c := by omega
      have hQ3 : (365 * (100 * c + 4 * a + s) + (100 * c + 4 * a + s) / 4
          - (100 * c + 4 * a + s) / 100 + w) / 146096 = 0 := by omega
      omega
  · have hQ1 : (365 * (100 * c + 4 * a + s) + (100 * c + 4 * a + s) / 4
        - (100 * c + 4 * a + s) / 100 + w) / 1460 = 25 * c + a := by omega
    have hQ2 : (365 * (100 * c + 4 * a + s) + (100 * c + 4 * a + s) / 4
        - (100 * c + 4 * a + s) / 100 + w) / 36524 = c := by omega
    have hQ3 : (365 * (100 * c + 4 * a + s) + (100 * c + 4 * a + s) / 4
        - (100 * c + 4 * a + s) / 100 + w) / 146096 = 0 := by omega
    omega

/-- The civil-from-days conversion inverts the shifted-coordinate day
    formula: `y2` is the March-based year, `mp` the shifted month in
    `[0, 11]`, `dd` the day of month. -/
theorem civilFromDays_core (y2 mp dd : Int) (hmp0 : 0 ≤ mp) (hmp1 : mp < 12)
    (hd1 : 1 ≤ dd)
    (hdim : dd ≤ (153 * (mp + 1) + 2) / 5 - (153 * mp + 2) / 5 ∨ mp = 11)
    (hw : (153 * mp + 2) / 5 + dd - 1 ≤ 364 ∨
      ((153 * mp + 2) / 5 + dd - 1 = 365 ∧ (y2 + 1) % 4 = 0 ∧
        ((y2 + 1) % 100 ≠ 0 ∨ (y2 + 1) % 400 = 0))) :
    civilFromDays (365 * y2 + y2 / 4 - y2 / 100 + y2 / 400
        + (153 * mp + 2) / 5 + dd - 1 - 719468) =
      (if (if mp < 10 then mp + 3 else mp - 9) ≤ 2 then y2 + 1 else y2,
        if mp < 10 then mp + 3 else mp - 9, dd) := by
  obtain ⟨q, r, hy2, hr0, hr1⟩ : ∃ q r, y2 = 400 * q + r ∧ 0 ≤ r ∧ r < 400 :=
    ⟨y2 / 400, y2 % 400, by omega, by omega, by omega⟩
  subst hy2
  have hdiv4 : (400 * q + r) / 4 = 100 * q + r / 4 := by omega
  have hdiv100 : (400 * q + r) / 100 = 4 * q + r / 100 := by omega
  have hdiv400 : (400 * q + r) / 400 = q := by omega
  set w : Int := (153 * mp + 2) / 5 + dd - 1 with hwdef
  have hw0 : 0 ≤ w := by omega
  have hw365 : w ≤ 365 := by omega
  have hwleap : w ≤ 364 ∨ (w = 365 ∧ r % 4 = 3 ∧ (¬ r % 100 = 99 ∨ r = 399)) := by omega
  have hz : 365 * (400 * q + r) + (400 * q + r) / 4 - (400 * q + r) / 100
      + (400 * q + r) / 400 + (153 * mp + 2) / 5 + dd - 1 - 719468
      = 146097 * q + (365 * r + r / 4 - r / 100 + w) - 719468 := by omega
  rw [hz]
  simp only [civilFromDays]
  have hdoe0 : 0 ≤ 365 * r + r / 4 - r / 100 + w := by omega
  have hdoe1 : 365 * r + r / 4 - r / 100 + w ≤ 146096 := by omega
  have hera : (146097 * q + (365 * r + r / 4 - r / 100 + w) - 719468 + 719468) / 146097 = q := by
    omega
  rw [hera]
  have hyoe := yoe_recover r w hr0 hr1 hw0 hwleap
  have hdoe : 146097 * q + (365 * r + r / 4 - r / 100 + w) - 719468 + 719468 - q * 146097
      = 365 * r + r / 4 - r / 100 + w := by omega
  rw [hdoe, hyoe]
  have hdoy : 365 * r + r / 4 - r / 100 + w - (365 * r + r / 4 - r / 100) = w := by omega
  rw [hdoy]
  have hmp : (5 * w + 2) / 153 = mp := by omega
  rw [hmp]
  have hdd : w - (153 * mp + 2) / 5 + 1 = dd := by omega
  rw [hdd]
  simp only [Prod.mk.injEq, and_true, true_and]
  split_ifs <;> omega

/-- Convenient instance-ready form of the roundtrip core: the day number
    and the civil components are passed as separate equals. -/
theorem civilFromDays_spec (z y2 mp dd cy cm : Int)
    (hz : z = 365 * y2 + y2 / 4 - y2 / 100 + y2 / 400 + (153 * mp + 2) / 5 + dd - 1 - 719468)
    (hmp0 : 0 ≤ mp) (hmp1 : mp < 12) (hd1 : 1 ≤ dd)
    (hdim : dd ≤ (153 * (mp + 1) + 2) / 5 - (153 * mp + 2) / 5 ∨ mp = 11)
    (hw : (153 * mp + 2) / 5 + dd - 1 ≤ 364 ∨
      ((153 * mp + 2) / 5 + dd - 1 = 365 ∧ (y2 + 1) % 4 = 0 ∧
        ((y2 + 1) % 100 ≠ 0 ∨ (y2 + 1) % 400 = 0)))
    (hcy : cy = if 10 ≤ mp then y2 + 1 else y2)
    (hcm : cm = if mp < 10 then mp + 3 else mp - 9) :
    civilFromDays z = (cy, cm, dd) := by
  subst hz
  subst hcy
  subst hcm
  rw [civilFromDays_core y2 mp dd hmp0 hmp1 hd1 hdim hw]
  simp only [Prod.mk.injEq, and_true, true_and]
  split_ifs <;> omega

/-- Reading back the civil fields of the day number of a valid calendar day
    returns that day: the `getFullYear`/`getMonth`/`getDate` fields of
    `new Date(y, m - 1, d)` are `y`, `m - 1`, `d`. -/
theorem civilFromDays_civilDays (y m d : Int) (hm1 : 1 ≤ m) (hm2 : m ≤ 12)
    (hd1 : 1 ≤ d) (hd2 : d ≤ daysInMonth y m) :
    civilFromDays (civilDays y m d) = (y, m, d) := by
  simp only [daysInMonth, isLeap, Bool.or_eq_true, Bool.and_eq_true, beq_iff_eq,
    bne_iff_ne] at hd2
  simp only [civilDays]
  interval_cases m <;> norm_num at hd2 ⊢
  · exact civilFromDays_spec _ (y - 1) 10 d y 1 (by omega) (by norm_num) (by norm_num) hd1
      (by omega) (by omega) (by norm_num) (by norm_num)
  · split_ifs at hd2 with hly
    · exact civilFromDays_spec _ (y - 1) 11 d y 2 (by omega) (by norm_num) (by norm_num) hd1
        (by norm_num) (by omega) (by norm_num) (by norm_num)
    · exact civilFromDays_spec _ (y - 1) 11 d y 2 (by omega) (by norm_num) (by norm_num) hd1
        (by norm_num) (by omega) (by norm_num) (by norm_num)
  · exact civilFromDays_spec _ y 0 d y 3 (by omega) (by norm_num) (by norm_num) hd1
      (by omega) (by omega) (by norm_num) (by norm_num)
  · exact civilFromDays_spec _ y 1 d y 4 (by omega) (by norm_num) (by norm_num) hd1
      (by omega) (by omega) (by norm_num) (by norm_num)
  · exact civilFromDays_spec _ y 2 d y 5 (by omega) (by norm_num) (by norm_num) hd1
      (by omega) (by omega) (by norm_num) (by norm_num)
  · exact civilFromDays_spec _ y 3 d y 6 (by omega) (by norm_num) (by norm_num) hd1
      (by omega) (by omega) (by norm_num) (by norm_num)
  · exact civilFromDays_spec _ y 4 d y 7 (by omega) (by norm_num) (by norm_num) hd1
      (by omega) (by omega) (by norm_num) (by norm_num)
  · exact civilFromDays_spec _ y 5 d y 8 (by omega) (by norm_num) (by norm_num) hd1
      (by omega) (by omega) (by norm_num) (by norm_num)
  · exact civilFromDays_spec _ y 6 d y 9 (by omega) (by norm_num) (by norm_num) hd1
      (by omega) (by omega) (by norm_num) (by norm_num)
  · exact civilFromDays_spec _ y 7 d y 10 (by omega) (by norm_num) (by norm_num) hd1
      (by omega) (by omega) (by norm_num) (by norm_num)
  · exact civilFromDays_spec _ y 8 d y 11 (by omega) (by norm_num) (by norm_num) hd1
      (by omega) (by omega) (by norm_num) (by norm_num)
  · exact civilFromDays_spec _ y 9 d y 12 (by omega) (by norm_num) (by norm_num) hd1
      (by omega) (by omega) (by norm_num) (by norm_num)

/-! ## Supporting lemmas: decimal rendering and date-string parsing -/

/-- Unfolding step for the fuelled digit renderer. -/
theorem natToStrAux_succ (fuel n : Nat) (acc : JSStr) :
    natToStrAux (fuel + 1) n acc =
      if n < 10 then digitChar n :: acc
      else natToStrAux fuel (n / 10) (digitChar (n % 10) :: acc) := rfl

/-- With sufficient fuel, the accumulator is simply appended. -/
theorem natToStrAux_append (n : Nat) (fuel : Nat) (acc : JSStr) (h : n < fuel) :
    natToStrAux fuel n acc = natToStr n ++ acc := by
  induction n using Nat.strong_induction_on generalizing fuel acc with
  | _ n ih =>
    match fuel, h with
    | f + 1, h =>
      by_cases h10 : n < 10
      · rw [natToStrAux_succ, if_pos h10, natToStr, natToStrAux_succ, if_pos h10,
          List.cons_append, List.nil_append]
      · have hlt : n / 10 < n := Nat.div_lt_self (by omega) (by omega)
        rw [natToStrAux_succ, if_neg h10, natToStr, natToStrAux_succ, if_neg h10,
          ih (n / 10) hlt f _ (by omega), ih (n / 10) hlt n _ (by omega),
          List.append_assoc, List.cons_append, List.nil_append]

/-- Peeling the least significant digit off the renderer. -/
theorem natToStr_step (n : Nat) (h : ¬ n < 10) :
    natToStr n = natToStr (n / 10) ++ [digitChar (n % 10)] := by
  rw [natToStr, natToStrAux_succ, if_neg h]
  rw [natToStrAux_append (n / 10) n _ (by omega)]

/-- Rendering of a single digit. -/
theorem natToStr_small (n : Nat) (h : n < 10) : natToStr n = [digitChar n] := by
  rw [natToStr, natToStrAux_succ, if_pos h]

/-- Code point of a digit character. -/
theorem digitChar_toNat (n : Nat) (h : n < 10) : (digitChar n).toNat = 48 + n := by
  interval_cases n <;> decide

/-- Digit characters satisfy `isDigit`. -/
theorem digitChar_isDigit (n : Nat) (h : n < 10) : (digitChar n).isDigit = true := by
  interval_cases n <;> decide

/-- Digit characters are not the separator. -/
theorem digitChar_ne_dash (n : Nat) (h : n < 10) : digitChar n ≠ '-' := by
  interval_cases n <;> decide

/-- Evaluation of the digit fold on a one-character extension. -/
theorem digitsToNat_append_one (s : JSStr) (c : Char) :
    digitsToNat (s ++ [c]) = 10 * digitsToNat s + (c.toNat - 48) := by
  simp [digitsToNat, List.foldl_append]

/-- The digit fold inverts the decimal renderer. -/
theorem digitsToNat_natToStr (n : Nat) : digitsToNat (natToStr n) = n := by
  induction n using Nat.strong_induction_on with
  | _ n ih =>
    by_cases h10 : n < 10
    · rw [natToStr_small n h10]
      simp [digitsToNat, digitChar_toNat n h10]
    · have hlt : n / 10 < n := Nat.div_lt_self (by omega) (by omega)
      rw [natToStr_step n h10, digitsToNat_append_one, ih _ hlt,
        digitChar_toNat _ (by omega)]
      omega

/-- Rendered naturals consist of digits. -/
theorem allDigits_natToStr (n : Nat) : allDigits (natToStr n) = true := by
  induction n using Nat.strong_induction_on with
  | _ n ih =>
    by_cases h10 : n < 10
    · rw [natToStr_small n h10]
      simp [allDigits, digitChar_isDigit n h10]
    · have hlt : n / 10 < n := Nat.div_lt_self (by omega) (by omega)
      rw [natToStr_step n h10]
      simp only [allDigits, List.all_append] at ih ⊢
      rw [ih _ hlt]
      simp [digitChar_isDigit (n % 10) (by omega)]

/-- Rendered naturals are nonempty. -/
theorem natToStr_ne_nil (n : Nat) : natToStr n ≠ [] := by
  by_cases h10 : n < 10
  · rw [natToStr_small n h10]
    simp
  · rw [natToStr_step n h10]
    simp

/-- Rendered naturals contain no separator. -/
theorem dash_not_mem_natToStr (n : Nat) : '-' ∉ natToStr n := by
  induction n using Nat.strong_induction_on with
  | _ n ih =>
    by_cases h10 : n < 10
    · rw [natToStr_small n h10]
      simp [(digitChar_ne_dash n h10).symm]
    · have hlt : n / 10 < n := Nat.div_lt_self (by omega) (by omega)
      rw [natToStr_step n h10]
      simp only [List.mem_append, List.mem_singleton]
      push_neg
      exact ⟨ih _ hlt, (digitChar_ne_dash (n % 10) (by omega)).symm⟩

/-- The split of a string beginning with a separator-free segment. -/
theorem splitDash_append (a rest : JSStr) (ha : '-' ∉ a) :
    splitDash (a ++ '-' :: rest) = a :: splitDash rest := by
  induction a with
  | nil => simp [splitDash]
  | cons c a ih =>
    have hc : c ≠ '-' := by
      intro h
      exact ha (h ▸ List.mem_cons_self c a)
    have ha' : '-' ∉ a := fun h => ha (List.mem_cons_of_mem c h)
    rw [List.cons_append, splitDash, if_neg hc, ih ha']

/-- The split of a separator-free string is that string alone. -/
theorem splitDash_nodash (a : JSStr) (ha : '-' ∉ a) : splitDash a = [a] := by
  induction a with
  | nil => simp [splitDash]
  | cons c a ih =>
    have hc : c ≠ '-' := by
      intro h
      exact ha (h ▸ List.mem_cons_self c a)
    have ha' : '-' ∉ a := fun h => ha (List.mem_cons_of_mem c h)
    simp only [splitDash, if_neg hc, ih ha']

/-- Leading zeros do not change the digit fold. -/
theorem digitsToNat_replicate_zero (k : Nat) (s : JSStr) :
    digitsToNat (List.replicate k '0' ++ s) = digitsToNat s := by
  induction k with
  | zero => simp
  | succ k ih =>
    have h : List.replicate (k + 1) '0' ++ s = '0' :: (List.replicate k '0' ++ s) := by
      simp [List.replicate_succ]
    rw [h]
    simp only [digitsToNat, List.foldl_cons] at ih ⊢
    simpa using ih

/-- `Number` recovers a rendered natural. -/
theorem jsNumber_natToStr (n : Nat) : jsNumber (natToStr n) = some (n : Int) := by
  rw [jsNumber, if_neg (natToStr_ne_nil n)]
  rw [if_pos (allDigits_natToStr n), digitsToNat_natToStr]

/-- `allDigits` distributes over append. -/
theorem allDigits_append (a b : JSStr) :
    allDigits (a ++ b) = (allDigits a && allDigits b) := by
  simp [allDigits, List.all_append]

/-- `Number` also recovers a zero-padded rendered natural. -/
theorem jsNumber_padStart2_natToStr (n : Nat) :
    jsNumber (padStart2 (natToStr n)) = some (n : Int) := by
  rw [padStart2]
  by_cases hl : (natToStr n).length ≥ 2
  · rw [if_pos hl, jsNumber_natToStr]
  · rw [if_neg hl, jsNumber]
    have hne : List.replicate (2 - (natToStr n).length) '0' ++ natToStr n ≠ [] := by
      simp [natToStr_ne_nil n]
    rw [if_neg hne]
    have hall : allDigits (List.replicate (2 - (natToStr n).length) '0' ++ natToStr n)
        = true := by
      rw [allDigits_append, allDigits_natToStr, Bool.and_true]
      simp [allDigits, List.all_replicate]
    rw [if_pos hall, digitsToNat_replicate_zero, digitsToNat_natToStr]

/-- Zero-padded rendered naturals contain no separator. -/
theorem dash_not_mem_padStart2_natToStr (n : Nat) : '-' ∉ padStart2 (natToStr n) := by
  rw [padStart2]
  by_cases hl : (natToStr n).length ≥ 2
  · rw [if_pos hl]
    exact dash_not_mem_natToStr n
  · rw [if_neg hl]
    intro hmem
    rcases List.mem_append.mp hmem with h | h
    · have := List.eq_of_mem_replicate h
      simp at this
    · exact dash_not_mem_natToStr n h

/-- Nonnegative integers render without a sign. -/
theorem intToStr_nonneg (n : Int) (h : 0 ≤ n) : intToStr n = natToStr n.toNat := by
  rw [intToStr, if_neg (by omega)]

/-- `MakeDay` with an in-range month index needs no month carrying. -/
theorem jsMakeDay_months (y m d : Int) (h1 : 1 ≤ m) (h2 : m ≤ 12) :
    jsMakeDay y (m - 1) d = civilDays y m d := by
  rw [jsMakeDay, show (m - 1) / 12 = 0 by omega, show (m - 1) % 12 = m - 1 by omega]
  norm_num

/-- Day numbers of four-digit-year days are far from the `TimeClip` bound. -/
theorem civilDays_bounds (y m d : Int) (hy1 : 1000 ≤ y) (hy2 : y ≤ 9999)
    (hm1 : 1 ≤ m) (hm2 : m ≤ 12) (hd1 : 1 ≤ d) (hd2 : d ≤ 31) :
    -100000000 ≤ civilDays y m d ∧ civilDays y m d ≤ 100000000 := by
  rw [civilDays]
  split_ifs <;> constructor <;> omega

/-- Each month has at most 31 days. -/
theorem daysInMonth_le (y m : Int) : daysInMonth y m ≤ 31 := by
  rw [daysInMonth]
  split_ifs <;> omega

/-- Parsing a well-formed four-digit-year date string produces the valid
    date with its day number. -/
theorem parseDate_renderDate (y m d : Int) (hy1 : 1000 ≤ y) (hy2 : y ≤ 9999)
    (hm1 : 1 ≤ m) (hm2 : m ≤ 12) (hd1 : 1 ≤ d) (hd2 : d ≤ 31) :
    parseDate (renderDate y m d) = some (civilDays y m d) := by
  rw [renderDate, intToStr_nonneg y (by omega), intToStr_nonneg m (by omega),
    intToStr_nonneg d (by omega)]
  rw [parseDate]
  rw [splitDash_append _ _ (dash_not_mem_natToStr y.toNat)]
  rw [splitDash_append _ _ (dash_not_mem_padStart2_natToStr m.toNat)]
  rw [splitDash_nodash _ (dash_not_mem_padStart2_natToStr d.toNat)]
  simp only [List.getElem?_cons_zero, List.getElem?_cons_succ, jsNumberU,
    jsNumber_natToStr, jsNumber_padStart2_natToStr]
  rw [Int.toNat_of_nonneg (by omega : (0:Int) ≤ y),
    Int.toNat_of_nonneg (by omega : (0:Int) ≤ m),
    Int.toNat_of_nonneg (by omega : (0:Int) ≤ d)]
  rw [if_neg (by omega)]
  rw [jsMakeDay_months y m d hm1 hm2]
  have hb := civilDays_bounds y m d hy1 hy2 hm1 hm2 hd1 hd2
  rw [clipDay, if_pos (by rw [msPerDay, maxTimeMs] at *; constructor <;>
    nlinarith [hb.1, hb.2])]

/-- Formatting the day number of a valid day reproduces its date string. -/
theorem formatDate_civilDays (y m d : Int) (hm1 : 1 ≤ m) (hm2 : m ≤ 12)
    (hd1 : 1 ≤ d) (hd2 : d ≤ daysInMonth y m) :
    formatDate (some (civilDays y m d)) = renderDate y m d := by
  simp only [formatDate, civilFromDays_civilDays y m d hm1 hm2 hd1 hd2, renderDate]

/-- The validator on a well-formed date string computes the pure day-number
    comparison against the earliest date and the current day. -/
theorem isValidApodDate_renderDate (y m d today τ : Int)
    (hy1 : 1000 ≤ y) (hy2 : y ≤ 9999) (hm1 : 1 ≤ m) (hm2 : m ≤ 12)
    (hd1 : 1 ≤ d) (hd2 : d ≤ 31) (hτ0 : 0 ≤ τ) (hτ1 : τ < msPerDay) :
    isValidApodDate (renderDate y m d) (today * msPerDay + τ) =
      (decide (minApodDate ≤ civilDays y m d) && decide (civilDays y m d ≤ today)) := by
  simp only [isValidApodDate, parseDate_renderDate y m d hy1 hy2 hm1 hm2 hd1 hd2]
  simp only [msPerDay] at hτ1 ⊢
  congr 1
  · exact decide_eq_decide.mpr (by constructor <;> intro h <;> nlinarith)
  · exact decide_eq_decide.mpr (by omega)

/-! ## Claim theorems -/

/-- C2 (amended): for every real calendar day with a year between 1000 and
    9999, formatting the result of parsing its `YYYY-MM-DD` rendering
    returns the rendering itself: `format(parse(s)) = s`. -/
theorem format_parse_roundtrip (y m d : Int) (hy1 : 1000 ≤ y) (hy2 : y ≤ 9999)
    (hm1 : 1 ≤ m) (hm2 : m ≤ 12) (hd1 : 1 ≤ d) (hd2 : d ≤ daysInMonth y m) :
    formatDate (parseDate (renderDate y m d)) = renderDate y m d := by
  rw [parseDate_renderDate y m d hy1 hy2 hm1 hm2 hd1 (le_trans hd2 (daysInMonth_le y m)),
    formatDate_civilDays y m d hm1 hm2 hd1 hd2]

/-- C2 witness: the roundtrip at the leap day 2024-02-29. -/
theorem format_parse_roundtrip_witness :
    formatDate (parseDate (renderDate 2024 2 29)) = renderDate 2024 2 29 :=
  format_parse_roundtrip 2024 2 29 (by norm_num) (by norm_num) (by norm_num)
    (by norm_num) (by norm_num) (by decide)

/-- C2 counterexample: `"0099-01-01"` is a zero-padded four-digit-year
    rendering of a real calendar day, but the `Date` constructor maps years
    0 to 99 to 1900 to 1999, so the roundtrip rewrites the string. -/
theorem format_parse_low_year_counterexample :
    formatDate (parseDate "0099-01-01".data) = "1999-01-01".data ∧
    "1999-01-01".data ≠ "0099-01-01".data := by decide

/-- C3: on well-formed date strings the range validator is true exactly on
    `[1995-06-16, today]`, evaluated against the clock at call time:
    `"1995-06-15"` is rejected, `"1995-06-16"` is accepted, the current day
    is accepted, and the next day is rejected. -/
theorem isValidApodDate_range (y m d today τ : Int)
    (hy1 : 1000 ≤ y) (hy2 : y ≤ 9999) (hm1 : 1 ≤ m) (hm2 : m ≤ 12)
    (hd1 : 1 ≤ d) (hd2 : d ≤ 31)
    (hτ0 : 0 ≤ τ) (hτ1 : τ < msPerDay) (htoday : minApodDate ≤ today) :
    (isValidApodDate (renderDate y m d) (today * msPerDay + τ) = true ↔
      minApodDate ≤ civilDays y m d ∧ civilDays y m d ≤ today) ∧
    isValidApodDate "1995-06-15".data (today * msPerDay + τ) = false ∧
    isValidApodDate "1995-06-16".data (today * msPerDay + τ) = true ∧
    (civilDays y m d = today →
      isValidApodDate (renderDate y m d) (today * msPerDay + τ) = true) ∧
    (civilDays y m d = today + 1 →
      isValidApodDate (renderDate y m d) (today * msPerDay + τ) = false) := by
  have hk := isValidApodDate_renderDate y m d today τ hy1 hy2 hm1 hm2 hd1 hd2 hτ0 hτ1
  have h15 : ("1995-06-15".data : JSStr) = renderDate 1995 6 15 := by decide
  have h16 : ("1995-06-16".data : JSStr) = renderDate 1995 6 16 := by decide
  have hk15 := isValidApodDate_renderDate 1995 6 15 today τ (by norm_num) (by norm_num)
    (by norm_num) (by norm_num) (by norm_num) (by norm_num) hτ0 hτ1
  have hk16 := isValidApodDate_renderDate 1995 6 16 today τ (by norm_num) (by norm_num)
    (by norm_num) (by norm_num) (by norm_num) (by norm_num) hτ0 hτ1
  refine ⟨?_, ?_, ?_, ?_, ?_⟩
  · rw [hk]
    simp [Bool.and_eq_true, decide_eq_true_eq]
  · rw [h15, hk15, show decide (minApodDate ≤ civilDays 1995 6 15) = false by decide,
      Bool.false_and]
  · rw [h16, hk16, show decide (minApodDate ≤ civilDays 1995 6 16) = true by decide,
      Bool.true_and, show civilDays 1995 6 16 = minApodDate by decide,
      decide_eq_true htoday]
  · intro h
    rw [hk, h, decide_eq_true htoday, decide_eq_true (le_refl today), Bool.and_true]
  · intro h
    rw [hk, h, Bool.eq_false_iff]
    simp only [ne_eq, Bool.and_eq_true, decide_eq_true_eq]
    omega

/-- C3 witness: the characterisation at 2024-05-10 with the clock at that
    local midnight. -/
theorem isValidApodDate_range_witness :
    (isValidApodDate (renderDate 2024 5 10) (19853 * msPerDay + 0) = true ↔
      minApodDate ≤ civilDays 2024 5 10 ∧ civilDays 2024 5 10 ≤ 19853) ∧
    isValidApodDate "1995-06-15".data (19853 * msPerDay + 0) = false ∧
    isValidApodDate "1995-06-16".data (19853 * msPerDay + 0) = true ∧
    (civilDays 2024 5 10 = 19853 →
      isValidApodDate (renderDate 2024 5 10) (19853 * msPerDay + 0) = true) ∧
    (civilDays 2024 5 10 = 19853 + 1 →
      isValidApodDate (renderDate 2024 5 10) (19853 * msPerDay + 0) = false) :=
  isValidApodDate_range 2024 5 10 19853 0 (by norm_num) (by norm_num) (by norm_num)
    (by norm_num) (by norm_num) (by norm_num) (by norm_num) (by decide) (by decide)

/-- C10 (amended): parsing failures never raise — the validator simply
    returns false on them — and any string with fewer than three
    `'-'`-separated segments fails to parse (its day component is
    `Number(undefined)`, NaN). -/
theorem validator_total_on_malformed :
    (∀ (s : JSStr) (nowMs : Int), parseDate s = none → isValidApodDate s nowMs = false) ∧
    (∀ s : JSStr, (splitDash s).length < 3 → parseDate s = none) := by
  constructor
  · intro s nowMs hp
    simp only [isValidApodDate, hp]
  · intro s hlen
    rw [parseDate]
    have h2 : (splitDash s)[2]? = none := by
      rw [List.getElem?_eq_none_iff]
      omega
    rw [h2]
    cases jsNumberU (splitDash s)[0]? <;> cases jsNumberU (splitDash s)[1]? <;> rfl

/-- C10 witness: a non-numeric string and a two-segment string. -/
theorem validator_total_on_malformed_witness :
    isValidApodDate "not-a-date".data 0 = false ∧ parseDate "2020-01".data = none :=
  ⟨validator_total_on_malformed.1 "not-a-date".data 0 (by decide),
    validator_total_on_malformed.2 "2020-01".data (by decide)⟩

/-- C10 counterexample: a malformed string with four segments does not
    yield an invalid date — it parses from its first three segments and the
    validator returns true, not false. -/
theorem validator_extra_segments_counterexample :
    isValidApodDate "2020-01-02-03".data (civilDays 2024 1 1 * msPerDay) = true ∧
    parseDate "2020-01-02-03".data = some (civilDays 2020 1 2) := by decide

/-- C1: every failed fetch clears `isLoading`, records the message derived
    from the error kind in `error`, and leaves `currentApod` untouched; via
    the backend route, an upstream HTTP 400 surfaces exactly
    `"Invalid date format. Use YYYY-MM-DD"`. -/
theorem loadDate_failure (st : AppState) (date : Option JSStr)
    (status : Nat) (dataError : Option JSStr) (m : JSStr) :
    (fetchAPODInternal st date (.httpError status dataError)).1 =
      { st with
          isLoading := false
          error := some (errorMessageOf (.httpError status dataError)) } ∧
    (fetchAPODInternal st date .noResponse).1 =
      { st with
          isLoading := false
          error := some "No response from server. Check your connection.".data } ∧
    (fetchAPODInternal st date .setupError).1 =
      { st with
          isLoading := false
          error := some "Failed to fetch APOD data.".data } ∧
    (fetchAPODInternal st date (.httpError status dataError)).1.currentApod
      = st.currentApod ∧
    apodRoute (.errResponse 400 m) = .err 400 invalidDateMsg ∧
    (fetchAPODInternal st date
        (outcomeOfResponse (apodRoute (.errResponse 400 m)))).1.error
      = some invalidDateMsg :=
  ⟨rfl, rfl, rfl, rfl, rfl, rfl⟩

/-- C4 (amended): when the target date falls outside the valid range, the
    Navigate transition issues no fetch, changes nothing in the state, and
    reports the boundary message through an alert — the future-date message
    for direction `+1`, the earliest-date message for `-1`. -/
theorem navigate_boundary (st : AppState) (apod : Apod) (direction nowMs : Int)
    (hcur : st.currentApod = some apod)
    (hinvalid : isValidApodDate (addDays apod.date direction) nowMs = false) :
    navigateAPOD st direction nowMs =
      (st, [.alertMsg (if direction > 0 then futureMsg else pastMsg)]) := by
  simp only [navigateAPOD, hcur, hinvalid, Bool.false_eq_true, if_false]

/-- C4 witness: Navigate(+1) when the current record shows the current day
    (2024-05-10, clock at local midnight of that day): no fetch, unchanged
    state, future-date alert. -/
theorem navigate_boundary_witness :
    navigateAPOD sampleState 1 (19853 * msPerDay) =
      (sampleState, [.alertMsg (if (1:Int) > 0 then futureMsg else pastMsg)]) :=
  navigate_boundary sampleState sampleApod 1 (19853 * msPerDay) (by decide) (by decide)

/-- C4 counterexample: the boundary report goes only to `alert` — the state
    field `error` (the `lastError` of the specification) stays `none` and
    is not set to the future-date boundary message. -/
theorem navigate_boundary_error_counterexample :
    (navigateAPOD sampleState 1 (19853 * msPerDay)).1.error ≠ some futureMsg ∧
    (navigateAPOD sampleState 1 (19853 * msPerDay)).1 = sampleState ∧
    (navigateAPOD sampleState 1 (19853 * msPerDay)).2 = [.alertMsg futureMsg] := by
  decide

/-- C5 (amended): the React client load treats the legacy array shape and
    absent values as the empty mapping and keeps stored objects; the
    vanilla `getFavorites` returns `{}` only when the store is absent and
    returns a stored array unchanged. -/
theorem bookmark_load (elems : List Apod) (entries : FavMap) :
    loadFavoritesReact (some (.arrayVal elems)) = [] ∧
    loadFavoritesReact none = [] ∧
    loadFavoritesReact (some (.objVal entries)) = entries ∧
    getFavorites none = .objVal [] ∧
    getFavorites (some (.arrayVal elems)) = .arrayVal elems :=
  ⟨rfl, rfl, rfl, rfl, rfl⟩

/-- C5 counterexample: in the vanilla client, loading a store that holds a
    JSON array returns the array contents, not an empty mapping. -/
theorem bookmark_load_array_counterexample :
    getFavorites (some (.arrayVal [sampleApod])) = .arrayVal [sampleApod] ∧
    getFavorites (some (.arrayVal [sampleApod])) ≠ .objVal [] := by decide

/-- C6: toggling a bookmark twice on a record whose date is not in the set
    first appends the snapshot and then removes it, returning the store to
    its original contents; neither toggle changes the state (in particular
    `currentApod`) and the only effect is the store write. -/
theorem toggle_roundtrip (st : AppState) (S : FavMap) (r : Apod)
    (hcur : st.currentApod = some r) (habs : favGet S r.date = none) :
    (toggleFavorite st S).1 = st ∧
    (toggleFavorite st S).2.1 = S ++ [(r.date, snapshotOf r)] ∧
    (toggleFavorite st S).2.2 = [.saveStore (S ++ [(r.date, snapshotOf r)])] ∧
    (toggleFavorite st (S ++ [(r.date, snapshotOf r)])).1 = st ∧
    (toggleFavorite st (S ++ [(r.date, snapshotOf r)])).2.1 = S ∧
    (toggleFavorite st (S ++ [(r.date, snapshotOf r)])).2.2 = [.saveStore S] := by
  have hf : S.find? (fun p => p.1 == r.date) = none := by
    rw [favGet] at habs
    exact Option.map_eq_none'.mp habs
  have hall : ∀ p ∈ S, ¬ (p.1 == r.date) = true := List.find?_eq_none.mp hf
  have hassign : favAssign S r.date (snapshotOf r) = S ++ [(r.date, snapshotOf r)] := by
    rw [favAssign, hf]
    simp
  have hget1 : (favGet S r.date).isSome = false := by
    rw [habs]
    rfl
  have hfind2 : (S ++ [(r.date, snapshotOf r)]).find? (fun p => p.1 == r.date)
      = some (r.date, snapshotOf r) := by
    rw [List.find?_append, hf, Option.none_or]
    simp
  have hget2 : (favGet (S ++ [(r.date, snapshotOf r)]) r.date).isSome = true := by
    rw [favGet, hfind2]
    rfl
  have hdel : favDelete (S ++ [(r.date, snapshotOf r)]) r.date = S := by
    rw [favDelete, List.filter_append]
    have hS : S.filter (fun p => !(p.1 == r.date)) = S :=
      List.filter_eq_self.mpr (fun a ha => by simpa using hall a ha)
    rw [hS]
    simp
  refine ⟨?_, ?_, ?_, ?_, ?_, ?_⟩ <;>
    simp only [toggleFavorite, hcur, hget1, hget2, Bool.false_eq_true, if_false,
      if_true, hassign, hdel]

/-- C6 witness: the round trip on the empty store with the sample record. -/
theorem toggle_roundtrip_witness :
    (toggleFavorite sampleState []).1 = sampleState ∧
    (toggleFavorite sampleState []).2.1 = [] ++ [(sampleApod.date, snapshotOf sampleApod)] ∧
    (toggleFavorite sampleState []).2.2 =
      [.saveStore ([] ++ [(sampleApod.date, snapshotOf sampleApod)])] ∧
    (toggleFavorite sampleState ([] ++ [(sampleApod.date, snapshotOf sampleApod)])).1
      = sampleState ∧
    (toggleFavorite sampleState ([] ++ [(sampleApod.date, snapshotOf sampleApod)])).2.1
      = [] ∧
    (toggleFavorite sampleState ([] ++ [(sampleApod.date, snapshotOf sampleApod)])).2.2
      = [.saveStore []] :=
  toggle_roundtrip sampleState [] sampleApod (by decide) (by decide)

/-- C7: while the date modal is open — or while the click lands inside an
    interactive element, which includes any open modal — the foreground
    click handler leaves the state, in particular `isFocusMode`,
    unchanged. -/
theorem focus_toggle_suppressed (st : AppState) (targetInteractive : Bool)
    (h : st.isModalOpen = true ∨ targetInteractive = true) :
    handleForegroundClick st targetInteractive = st ∧
    (handleForegroundClick st targetInteractive).isFocusMode = st.isFocusMode := by
  have heq : handleForegroundClick st targetInteractive = st := by
    rw [handleForegroundClick]
    rcases h with h | h <;> simp [h]
  exact ⟨heq, by rw [heq]⟩

/-- C7 witness: a non-interactive click while the date modal is open. -/
theorem focus_toggle_suppressed_witness :
    handleForegroundClick { sampleState with isModalOpen := true } false
      = { sampleState with isModalOpen := true } ∧
    (handleForegroundClick { sampleState with isModalOpen := true } false).isFocusMode
      = ({ sampleState with isModalOpen := true } : AppState).isFocusMode :=
  focus_toggle_suppressed { sampleState with isModalOpen := true } false (Or.inl rfl)

/-- Unfolding step of the debounce run on two pending calls. -/
theorem debounceRun_two (delay : Int) (a b : Int × Option JSStr)
    (rest : List (Int × Option JSStr)) :
    debounceRun delay (a :: b :: rest) =
      if b.1 < a.1 + delay then debounceRun delay (b :: rest)
      else (a.1 + delay, a.2) :: debounceRun delay (b :: rest) := by
  obtain ⟨t1, d1⟩ := a
  obtain ⟨t2, d2⟩ := b
  rfl

/-- Every fired entry comes from a call that either was the final call or
    whose successor arrived at or after its timer expiry. -/
theorem mem_debounceRun (delay : Int) (l : List (Int × Option JSStr))
    (x : Int × Option JSStr) (hx : x ∈ debounceRun delay l) :
    ∃ u v p, l = u ++ p :: v ∧ x = (p.1 + delay, p.2) ∧
      (v = [] ∨ ∃ q v2, v = q :: v2 ∧ p.1 + delay ≤ q.1) := by
  induction l with
  | nil => simp [debounceRun] at hx
  | cons a rest ih =>
    cases rest with
    | nil =>
      obtain ⟨t, d⟩ := a
      simp only [debounceRun, List.mem_singleton] at hx
      exact ⟨[], [], (t, d), by simp, by simp [hx], Or.inl rfl⟩
    | cons b rest2 =>
      rw [debounceRun_two] at hx
      by_cases hc : b.1 < a.1 + delay
      · rw [if_pos hc] at hx
        obtain ⟨u, v, p, hl, hxeq, hnext⟩ := ih hx
        exact ⟨a :: u, v, p, by simp [hl], hxeq, hnext⟩
      · rw [if_neg hc] at hx
        rcases List.mem_cons.mp hx with hx1 | hx2
        · exact ⟨[], b :: rest2, a, by simp, hx1, Or.inr ⟨b, rest2, rfl, by omega⟩⟩
        · obtain ⟨u, v, p, hl, hxeq, hnext⟩ := ih hx2
          exact ⟨a :: u, v, p, by simp [hl], hxeq, hnext⟩

/-- In a strictly chronological call list, a decomposition at a given call
    time is unique. -/
theorem pairwise_split_unique (l : List (Int × Option JSStr)) :
    ∀ (u1 u2 : List (Int × Option JSStr)) (p1 p2 : Int × Option JSStr)
      (v1 v2 : List (Int × Option JSStr)),
      l = u1 ++ p1 :: v1 → l = u2 ++ p2 :: v2 → p1.1 = p2.1 →
      l.Pairwise (fun p q => p.1 < q.1) →
      u1 = u2 ∧ p1 = p2 ∧ v1 = v2 := by
  induction l with
  | nil =>
    intro u1 u2 p1 p2 v1 v2 h1 _ _ _
    exact absurd h1 (by simp)
  | cons w tail ih =>
    intro u1 u2 p1 p2 v1 v2 h1 h2 hk hp
    have hpw : ∀ x ∈ tail, w.1 < x.1 := (List.pairwise_cons.mp hp).1
    have hptail : tail.Pairwise (fun p q => p.1 < q.1) := (List.pairwise_cons.mp hp).2
    cases u1 with
    | nil =>
      cases u2 with
      | nil =>
        simp only [List.nil_append, List.cons.injEq] at h1 h2
        exact ⟨rfl, h1.1.symm.trans h2.1, h1.2.symm.trans h2.2⟩
      | cons w2 u2' =>
        simp only [List.nil_append, List.cons_append, List.cons.injEq] at h1 h2
        exfalso
        have hp2mem : p2 ∈ tail := by
          rw [h2.2]
          exact List.mem_append.mpr (Or.inr (List.mem_cons_self _ _))
        have hlt := hpw p2 hp2mem
        rw [h1.1] at hlt
        omega
    | cons w1 u1' =>
      cases u2 with
      | nil =>
        simp only [List.nil_append, List.cons_append, List.cons.injEq] at h1 h2
        exfalso
        have hp1mem : p1 ∈ tail := by
          rw [h1.2]
          exact List.mem_append.mpr (Or.inr (List.mem_cons_self _ _))
        have hlt := hpw p1 hp1mem
        rw [h2.1] at hlt
        omega
      | cons w2 u2' =>
        simp only [List.cons_append, List.cons.injEq] at h1 h2
        obtain ⟨hu, hpeq, hveq⟩ := ih u1' u2' p1 p2 v1 v2 h1.2 h2.2 hk hptail
        exact ⟨by rw [h1.1.symm.trans h2.1, hu], hpeq, hveq⟩

/-- A call whose successor arrives inside the debounce window never
    fires. -/
theorem debounce_superseded (delay : Int) (l u v : List (Int × Option JSStr))
    (a b : Int × Option JSStr) (hL : l = u ++ a :: b :: v)
    (hchron : l.Pairwise (fun p q => p.1 < q.1)) (hsup : b.1 < a.1 + delay) :
    (a.1 + delay, a.2) ∉ debounceRun delay l := by
  intro hmem
  obtain ⟨u2, v2, p, hl2, hxeq, hnext⟩ := mem_debounceRun delay l _ hmem
  have hkey : p.1 = a.1 := by
    have h := congrArg Prod.fst hxeq
    simp only [Prod.fst] at h
    omega
  obtain ⟨hu, hpeq, hveq⟩ :=
    pairwise_split_unique l u2 u p a v2 (b :: v) hl2 (by simpa using hL) hkey hchron
  rcases hnext with hnil | ⟨q, v3, hqv, hge⟩
  · rw [hveq] at hnil
    exact absurd hnil (by simp)
  · rw [hveq] at hqv
    have hqb : b = q := (List.cons.injEq _ _ _ _ ▸ hqv).1
    rw [hpeq, ← hqb] at hge
    omega

/-- The final call of a burst always fires, `delay` after its own time. -/
theorem debounce_last_fires (delay : Int) (l : List (Int × Option JSStr))
    (h : l ≠ []) :
    ((l.getLast h).1 + delay, (l.getLast h).2) ∈ debounceRun delay l := by
  induction l with
  | nil => exact absurd rfl h
  | cons a rest ih =>
    cases rest with
    | nil =>
      obtain ⟨t, d⟩ := a
      simp [debounceRun, List.getLast]
    | cons b rest2 =>
      have hne : b :: rest2 ≠ [] := by simp
      have hlast : (a :: b :: rest2).getLast h = (b :: rest2).getLast hne :=
        List.getLast_cons hne
      rw [debounceRun_two, hlast]
      by_cases hc : b.1 < a.1 + delay
      · rw [if_pos hc]
        exact ih hne
      · rw [if_neg hc]
        exact List.mem_cons_of_mem _ (ih hne)

/-- C8 (amended): in the vanilla client, `fetchAPOD` is the 300 ms
    trailing-edge debounce of `fetchAPODInternal`: a LoadDate invocation
    whose successor arrives within the window issues no request, and the
    final invocation of a burst always does. -/
theorem debounce_coalesces :
    (∀ (l u v : List (Int × Option JSStr)) (a b : Int × Option JSStr),
      l = u ++ a :: b :: v → l.Pairwise (fun p q => p.1 < q.1) →
      b.1 < a.1 + 300 → (a.1 + 300, a.2) ∉ debounceRun 300 l) ∧
    (∀ (l : List (Int × Option JSStr)) (h : l ≠ []),
      ((l.getLast h).1 + 300, (l.getLast h).2) ∈ debounceRun 300 l) :=
  ⟨fun l u v a b h1 h2 h3 => debounce_superseded 300 l u v a b h1 h2 h3,
    fun l h => debounce_last_fires 300 l h⟩

/-- C8 witness: for calls at 0 ms and 100 ms, the first never fires and the
    second fires at 400 ms. -/
theorem debounce_coalesces_witness :
    ((0 : Int) + 300, some "2024-01-01".data) ∉
      debounceRun 300 [(0, some "2024-01-01".data), (100, some "2024-01-02".data)] ∧
    (((100 : Int), some "2024-01-02".data).1 + 300,
        ((100 : Int), some "2024-01-02".data).2) ∈
      debounceRun 300 [(0, some "2024-01-01".data), (100, some "2024-01-02".data)] := by
  constructor
  · exact debounce_coalesces.1 _ [] [] (0, some "2024-01-01".data)
      (100, some "2024-01-02".data) rfl (by decide) (by decide)
  · have h := debounce_coalesces.2
      [((0 : Int), some "2024-01-01".data), (100, some "2024-01-02".data)] (by decide)
    simpa using h

/-- C8 counterexample: in the React client the fetch is not debounced — an
    invocation superseded 100 ms later (inside the 300 ms window) still
    issues its network request at its own call time. -/
theorem react_fetch_not_debounced :
    ((0 : Int), apodUrl (some "2024-01-01".data)) ∈
      reactFetchRequests [(0, some "2024-01-01".data), (100, some "2024-01-02".data)] ∧
    (100 : Int) - 0 < 300 := by decide

/-- Applying successful completions in arrival order ends with the last
    arrival displayed and the loading flag cleared. -/
theorem runCompletions_last (l : List (Option JSStr × Apod)) :
    ∀ (st : AppState) (h : l ≠ []),
      (runCompletions st l).currentApod = some (l.getLast h).2 ∧
      (runCompletions st l).isLoading = false := by
  induction l with
  | nil =>
    intro st h
    exact absurd rfl h
  | cons c rest ih =>
    intro st h
    cases rest with
    | nil => simp [runCompletions, fetchSuccess, List.getLast]
    | cons c2 rest2 =>
      have hne : c2 :: rest2 ≠ [] := by simp
      have hstep : runCompletions st (c :: c2 :: rest2)
          = runCompletions (fetchSuccess st c.1 c.2) (c2 :: rest2) := rfl
      rw [hstep, List.getLast_cons hne]
      exact ih (fetchSuccess st c.1 c.2) hne

/-- C9: overlapping LoadDate calls settle in wall-clock completion order.
    The success continuation is applied unconditionally per arriving
    response (no request fencing), so after LoadDate(A) then LoadDate(B)
    with responses arriving B first and A second, the state first shows B
    and finally shows A, with `isLoading` false; in general the final state
    reflects the last arrival. -/
theorem last_completion_wins (st : AppState) (dA dB : Option JSStr) (rA rB : Apod) :
    fetchAPODInternal st dA (.success rA) = (fetchSuccess (fetchStart st) dA rA, []) ∧
    (runCompletions (fetchStart (fetchStart st)) [(dB, rB)]).currentApod = some rB ∧
    (runCompletions (fetchStart (fetchStart st)) [(dB, rB), (dA, rA)]).currentApod
      = some rA ∧
    (runCompletions (fetchStart (fetchStart st)) [(dB, rB), (dA, rA)]).isLoading
      = false ∧
    (∀ (l : List (Option JSStr × Apod)) (st0 : AppState) (h : l ≠ []),
      (runCompletions st0 l).currentApod = some (l.getLast h).2) :=
  ⟨rfl, rfl, rfl, rfl, fun l st0 h => (runCompletions_last l st0 h).1⟩

/-- C9 witness: the general last-arrival clause at a concrete two-element
    completion list. -/
theorem last_completion_wins_witness :
    (runCompletions sampleState
        [(some "2024-05-09".data, sampleApod), (some "2024-05-10".data, sampleApod)]
      ).currentApod = some sampleApod :=
  (last_completion_wins sampleState none none sampleApod sampleApod).2.2.2.2
    [(some "2024-05-09".data, sampleApod), (some "2024-05-10".data, sampleApod)]
    sampleState (by decide)

end Cosmic
